import Mathlib

/-!
Verification of `fix-password.py` against its specification.

The script is a four-statement sequence: generate a salt with cost 10,
hash the hard-coded password `b'Test123!'`, print the hash, then verify
it with `bcrypt.checkpw` and print PASSED or FAILED.

The bcrypt primitive itself (`gensalt`, `hashpw`, `checkpw`) is a library
dependency whose code is not part of this repository, so it is modelled
here from the specification of the PasswordHasher component: the salt is
random, the hash is a self-describing encoding of algorithm tag, cost,
salt and digest, and verification re-derives the digest from the stored
parameters and compares.  Randomness is made explicit: the entropy that
`gensalt` draws is passed in as a natural-number argument, so that two
independent random draws are modelled as two distinct entropy values.
The digest is idealised as collision-free on valid byte strings (the
spec's "false with overwhelming probability" becomes "false").
-/

/-- A byte string, as a list of naturals (a valid byte is `< 256`). -/
abbrev Bytes := List Nat

/-- A valid password per the spec: a non-empty byte sequence of at most
72 bytes (the primitive's maximum input length), all entries bytes. -/
def ValidPassword (p : Bytes) : Prop :=
  p ≠ [] ∧ p.length ≤ 72 ∧ ∀ b ∈ p, b < 256

instance (p : Bytes) : Decidable (ValidPassword p) := by
  unfold ValidPassword; infer_instance

namespace bcrypt

/-- The error kinds of the spec's error-handling design. -/
inductive HashError where
  | invalidCost
  | invalidInput
  | malformedHash
deriving DecidableEq

/-- Modelled from the spec: a salt as returned by `bcrypt.gensalt` —
it carries the cost factor together with the random salt value
(abstracted as a natural number). -/
structure Salt where
  cost : Nat
  value : Nat
deriving DecidableEq

/-- Injective encoding of a byte string into a natural number; injective
on lists whose entries are `< 256`. -/
def encodeBytes : Bytes → Nat
  | [] => 0
  | b :: bs => 1 + b + 256 * encodeBytes bs

/-- Modelled from the spec: the one-way derivation underlying bcrypt,
a deterministic function of password, cost and salt value, idealised as
collision-free on valid byte strings. -/
def digest (password : Bytes) (cost : Nat) (saltValue : Nat) : Nat :=
  Nat.pair (encodeBytes password) (Nat.pair cost saltValue)

/-- Modelled from the spec: the encoded hash output is self-describing,
carrying algorithm tag (`2`, for the bcrypt family), cost factor, salt
and digest together. -/
structure BcryptHash where
  cost : Nat
  saltValue : Nat
  dig : Nat
deriving DecidableEq

/-- The encoded (serialised) form of a hash: algorithm tag, then cost,
salt and digest. -/
def encodeHash (h : BcryptHash) : Bytes :=
  [2, h.cost, h.saltValue, h.dig]

/-- Parsing an encoded hash: recognises exactly the four-field encoding
with the bcrypt algorithm tag and a cost in the supported range 4–31;
anything else is malformed. -/
def parseHash : Bytes → Option BcryptHash
  | [2, c, s, d] => if 4 ≤ c ∧ c ≤ 31 then some ⟨c, s, d⟩ else none
  | _ => none

/-- Modelled from the spec: `bcrypt.gensalt` — generates a fresh
cryptographically random salt carrying the requested cost factor; fails
with `InvalidCostError` if the cost is outside the supported range 4–31.
The random draw is the explicit `entropy` argument. -/
def gensalt (rounds : Nat) (entropy : Nat) : Except HashError Salt :=
  if 4 ≤ rounds ∧ rounds ≤ 31 then .ok ⟨rounds, entropy⟩
  else .error .invalidCost

/-- Modelled from the spec: `bcrypt.hashpw` — derives the digest from
the password with the salt's cost and value and returns the encoded,
self-describing hash; fails with `InvalidInputError` if the password
exceeds the primitive's maximum input length of 72 bytes. -/
def hashpw (password : Bytes) (salt : Salt) : Except HashError Bytes :=
  if password.length ≤ 72 then
    .ok (encodeHash ⟨salt.cost, salt.value, digest password salt.cost salt.value⟩)
  else .error .invalidInput

/-- Modelled from the spec: `bcrypt.checkpw` — parses cost and salt out
of the stored hash, re-derives the digest from the candidate password
with those exact parameters, and compares; returns `false` on mismatch
rather than raising; fails with `MalformedHashError` if the stored hash
does not parse. -/
def checkpw (password : Bytes) (h : Bytes) : Except HashError Bool :=
  match parseHash h with
  | none => .error .malformedHash
  | some bh => .ok (decide (digest password bh.cost bh.saltValue = bh.dig))

end bcrypt

namespace PasswordHasher

/-- The spec component's `hash(password, cost)`: generate a fresh random
salt at the given cost (entropy explicit), then derive the encoded hash. -/
def hash (password : Bytes) (cost : Nat) (entropy : Nat) :
    Except bcrypt.HashError Bytes :=
  match bcrypt.gensalt cost entropy with
  | .error e => .error e
  | .ok s => bcrypt.hashpw password s

/-- The spec component's `verify(password, hash)`. -/
def verify (password : Bytes) (h : Bytes) : Except bcrypt.HashError Bool :=
  bcrypt.checkpw password h

end PasswordHasher

/-- The script's hard-coded password `b'Test123!'` (its ASCII bytes). -/
def password : Bytes := [84, 101, 115, 116, 49, 50, 51, 33]

/-- Lines 11–14 of the script as a function of the `checkpw` result:
the line printed by the conditional, paired with the exit-code
contribution of the taken branch — neither branch calls any exit
routine, so both contribute the default status 0. -/
def verificationStep (ok : Bool) : String × Nat :=
  if ok then ("Verification test: PASSED", 0)
  else ("Verification test: FAILED", 0)

/-- The whole script, as a function of the entropy drawn by `gensalt`:
generate a salt with cost 10, hash the hard-coded password, print the
hash line, then verify and print the PASSED/FAILED line.  The result is
the list of lines written to standard output together with the process
exit status; an uncaught library error would end the script instead. -/
def scriptRun (entropy : Nat) :
    Except bcrypt.HashError (List String × Nat) :=
  match bcrypt.gensalt 10 entropy with
  | .error e => .error e
  | .ok s =>
    match bcrypt.hashpw password s with
    | .error e => .error e
    | .ok h =>
      match bcrypt.checkpw password h with
      | .error e => .error e
      | .ok b =>
        .ok (["New hash for Test123!: " ++ toString h,
              (verificationStep b).1], (verificationStep b).2)

/-! ### Helper lemmas -/

namespace bcrypt

/-- The byte-string encoding is injective on genuine byte strings. -/
theorem encodeBytes_injOn : ∀ p q : Bytes, (∀ b ∈ p, b < 256) → (∀ b ∈ q, b < 256) →
    encodeBytes p = encodeBytes q → p = q
  | [], [], _, _, _ => rfl
  | [], b :: bs, _, _, h => by simp only [encodeBytes] at h; exact absurd h (by omega)
  | a :: as, [], _, _, h => by simp only [encodeBytes] at h; exact absurd h (by omega)
  | a :: as, b :: bs, hp, hq, h => by
    simp only [encodeBytes] at h
    have ha : a < 256 := hp a (List.mem_cons_self a as)
    have hb : b < 256 := hq b (List.mem_cons_self b bs)
    have hab : a = b ∧ encodeBytes as = encodeBytes bs := by omega
    have := encodeBytes_injOn as bs (fun x hx => hp x (List.mem_cons_of_mem a hx))
      (fun x hx => hq x (List.mem_cons_of_mem b hx)) hab.2
    rw [hab.1, this]

/-- For a fixed cost and salt, equal digests come from equal passwords
(the collision-freeness idealisation). -/
theorem digest_injOn (p q : Bytes) (c s : Nat)
    (hp : ∀ b ∈ p, b < 256) (hq : ∀ b ∈ q, b < 256)
    (h : digest p c s = digest q c s) : p = q := by
  unfold digest at h
  exact encodeBytes_injOn p q hp hq (Nat.pair_eq_pair.mp h).1

/-- Verification succeeds on the encoded hash built from the same
password, cost and salt value, provided the cost is in range. -/
theorem checkpw_encode (p : Bytes) (c v : Nat) (h4 : 4 ≤ c) (h31 : c ≤ 31) :
    checkpw p (encodeHash ⟨c, v, digest p c v⟩) = .ok true := by
  simp [checkpw, encodeHash, parseHash, h4, h31]

end bcrypt

/-- With an in-range cost and a password within the length limit,
`hash` succeeds and returns the self-describing encoded hash. -/
theorem hash_ok (p : Bytes) (c v : Nat) (h4 : 4 ≤ c) (h31 : c ≤ 31)
    (hlen : p.length ≤ 72) :
    PasswordHasher.hash p c v = .ok (bcrypt.encodeHash ⟨c, v, bcrypt.digest p c v⟩) := by
  simp [PasswordHasher.hash, bcrypt.gensalt, bcrypt.hashpw, h4, h31, hlen]

/-- Evaluation of the whole script for an arbitrary entropy draw. -/
theorem scriptRun_eq (v : Nat) : scriptRun v =
    .ok (["New hash for Test123!: " ++
            toString (bcrypt.encodeHash ⟨10, v, bcrypt.digest password 10 v⟩),
          "Verification test: PASSED"], 0) := by
  simp [scriptRun, bcrypt.gensalt, bcrypt.hashpw, bcrypt.checkpw, bcrypt.parseHash,
    bcrypt.encodeHash, verificationStep, password]

/-! ### The claims -/

/-- Claim C1: for every valid password P and every cost factor C in the
supported range, `verify(P, hash(P, C))` returns true, whatever salt
entropy the hash call draws. -/
theorem roundtrip_verify_hash (p : Bytes) (c v : Nat)
    (hp : ValidPassword p) (h4 : 4 ≤ c) (h31 : c ≤ 31) :
    ∃ enc, PasswordHasher.hash p c v = .ok enc ∧
      PasswordHasher.verify p enc = .ok true :=
  ⟨_, hash_ok p c v h4 h31 hp.2.1, bcrypt.checkpw_encode p c v h4 h31⟩

/-- Claim C1, witnessed at the script's own values: password Test123!,
cost 10. -/
theorem roundtrip_verify_hash_witness :
    ∃ enc, PasswordHasher.hash password 10 0 = .ok enc ∧
      PasswordHasher.verify password enc = .ok true :=
  roundtrip_verify_hash password 10 0 (by decide) (by decide) (by decide)

/-- Claim C2: for valid passwords P ≠ Q and an in-range cost C,
`verify(Q, hash(P, C))` returns false (an ordinary result, not an
error). -/
theorem wrong_password_rejected (p q : Bytes) (c v : Nat)
    (hp : ValidPassword p) (hq : ValidPassword q) (hne : p ≠ q)
    (h4 : 4 ≤ c) (h31 : c ≤ 31) (enc : Bytes)
    (henc : PasswordHasher.hash p c v = .ok enc) :
    PasswordHasher.verify q enc = .ok false := by
  rw [hash_ok p c v h4 h31 hp.2.1] at henc
  injection henc with henc
  subst henc
  show bcrypt.checkpw q _ = .ok false
  simp [bcrypt.checkpw, bcrypt.encodeHash, bcrypt.parseHash, h4, h31]
  intro hcontra
  exact hne (bcrypt.digest_injOn q p c v hq.2.2 hp.2.2 hcontra).symm

/-- Claim C2, witnessed at the spec's concrete scenario: WrongPass
against the hash of Test123! at cost 10. -/
theorem wrong_password_rejected_witness :
    PasswordHasher.verify [87, 114, 111, 110, 103, 80, 97, 115, 115]
      (bcrypt.encodeHash ⟨10, 0, bcrypt.digest password 10 0⟩) = .ok false :=
  wrong_password_rejected password [87, 114, 111, 110, 103, 80, 97, 115, 115] 10 0
    (by decide) (by decide) (by decide) (by decide) (by decide) _
    (hash_ok password 10 0 (by decide) (by decide) (by decide))

/-- Claim C3: two hash calls with the same valid password and the same
in-range cost but independent salt draws produce two different encoded
outputs, and each verifies against the password. -/
theorem salt_freshness (p : Bytes) (c v₁ v₂ : Nat) (hp : ValidPassword p)
    (h4 : 4 ≤ c) (h31 : c ≤ 31) (hv : v₁ ≠ v₂) :
    ∃ e₁ e₂, PasswordHasher.hash p c v₁ = .ok e₁ ∧
      PasswordHasher.hash p c v₂ = .ok e₂ ∧ e₁ ≠ e₂ ∧
      PasswordHasher.verify p e₁ = .ok true ∧
      PasswordHasher.verify p e₂ = .ok true := by
  refine ⟨_, _, hash_ok p c v₁ h4 h31 hp.2.1, hash_ok p c v₂ h4 h31 hp.2.1, ?_,
    bcrypt.checkpw_encode p c v₁ h4 h31, bcrypt.checkpw_encode p c v₂ h4 h31⟩
  simp [bcrypt.encodeHash, hv]

/-- Claim C3, witnessed at the script's password and cost with two
distinct entropy draws. -/
theorem salt_freshness_witness :
    ∃ e₁ e₂, PasswordHasher.hash password 10 0 = .ok e₁ ∧
      PasswordHasher.hash password 10 1 = .ok e₂ ∧ e₁ ≠ e₂ ∧
      PasswordHasher.verify password e₁ = .ok true ∧
      PasswordHasher.verify password e₂ = .ok true :=
  salt_freshness password 10 0 1 (by decide) (by decide) (by decide) (by decide)

/-- Claim C4: for every cost factor outside the accepted range 4–31,
`hash(P, cost)` fails with `InvalidCostError` at hash time, for every
password P. -/
theorem invalid_cost_rejected (p : Bytes) (c v : Nat)
    (hc : ¬ (4 ≤ c ∧ c ≤ 31)) :
    PasswordHasher.hash p c v = .error .invalidCost := by
  simp [PasswordHasher.hash, bcrypt.gensalt, hc]

/-- Claim C4, witnessed at the out-of-range costs 0 and 32 named in the
spec. -/
theorem invalid_cost_rejected_witness :
    PasswordHasher.hash password 0 0 = .error .invalidCost ∧
    PasswordHasher.hash password 32 0 = .error .invalidCost :=
  ⟨invalid_cost_rejected password 0 0 (by decide),
   invalid_cost_rejected password 32 0 (by decide)⟩

/-- Claim C5: for every password longer than the 72-byte maximum input
length, `hash(password, C)` fails with `InvalidInputError` rather than
truncating. -/
theorem overlong_password_rejected (p : Bytes) (c v : Nat)
    (h4 : 4 ≤ c) (h31 : c ≤ 31) (hlen : 72 < p.length) :
    PasswordHasher.hash p c v = .error .invalidInput := by
  have hn : ¬ p.length ≤ 72 := by omega
  simp [PasswordHasher.hash, bcrypt.gensalt, bcrypt.hashpw, h4, h31, hn]

/-- Claim C5, witnessed at a 73-byte password. -/
theorem overlong_password_rejected_witness :
    PasswordHasher.hash (List.replicate 73 97) 10 0 = .error .invalidInput :=
  overlong_password_rejected (List.replicate 73 97) 10 0 (by decide) (by decide) (by decide)

/-- Claim C6: for every byte string that does not parse as a recognised
hash encoding, `verify` fails with `MalformedHashError` for every
password; it never returns a true or false result there. -/
theorem malformed_hash_rejected (p h : Bytes) (hm : bcrypt.parseHash h = none) :
    PasswordHasher.verify p h = .error .malformedHash := by
  show bcrypt.checkpw p h = _
  simp [bcrypt.checkpw, hm]

/-- Claim C6, witnessed at the empty byte string, which parses as no
hash encoding. -/
theorem malformed_hash_rejected_witness :
    PasswordHasher.verify password [] = .error .malformedHash :=
  malformed_hash_rejected password [] rfl

/-- Claim C7: run with no arguments (the script is a function of the
salt entropy alone), the script prints exactly two lines to standard
output: first the hash line for the hard-coded password Test123!, then
a verification line reading PASSED when `checkpw` succeeds and FAILED
otherwise. -/
theorem script_output_two_lines (v : Nat) :
    ∃ h b, bcrypt.checkpw password h = .ok b ∧
      scriptRun v = .ok (["New hash for Test123!: " ++ toString h,
        if b then "Verification test: PASSED" else "Verification test: FAILED"], 0) ∧
      (["New hash for Test123!: " ++ toString h,
        if b then "Verification test: PASSED" else "Verification test: FAILED"] :
          List String).length = 2 :=
  ⟨bcrypt.encodeHash ⟨10, v, bcrypt.digest password 10 v⟩, true,
   bcrypt.checkpw_encode password 10 v (by decide) (by decide),
   by rw [scriptRun_eq]; rfl, rfl⟩

/-- Claim C8: the script sets no distinct exit code on verification
failure — the PASSED and FAILED branches contribute the same exit
status, and every run of the script exits with status 0. -/
theorem script_exit_code_independent :
    (verificationStep true).2 = (verificationStep false).2 ∧
    ∀ v : Nat, (scriptRun v).map Prod.snd = .ok 0 :=
  ⟨rfl, fun v => by rw [scriptRun_eq]; rfl⟩

/-- Claim C9: the FAILED branch is unreachable — the script verifies
the exact password it just hashed with the salt it just generated, so
`checkpw` returns true, the verification line always reads PASSED, and
the FAILED line is never printed. -/
theorem script_failed_branch_unreachable (v : Nat) :
    bcrypt.checkpw password (bcrypt.encodeHash ⟨10, v, bcrypt.digest password 10 v⟩) =
      .ok true ∧
    ∀ lines code, scriptRun v = .ok (lines, code) →
      lines.get? 1 = some "Verification test: PASSED" ∧
      "Verification test: FAILED" ∉ lines := by
  refine ⟨bcrypt.checkpw_encode password 10 v (by decide) (by decide), ?_⟩
  intro lines code h
  rw [scriptRun_eq] at h
  injection h with h
  rw [Prod.mk.injEq] at h
  rw [← h.1]
  refine ⟨rfl, ?_⟩
  intro hmem
  simp only [List.mem_cons, List.mem_singleton] at hmem
  rcases hmem with hmem | hmem | hmem
  · have := congrArg String.data hmem.symm
    simp [String.data_append] at this
  · exact absurd hmem (by decide)
  · exact absurd hmem (List.not_mem_nil _)

/-- Claim C9, witnessed at entropy 0: the concrete run prints PASSED in
second position and FAILED nowhere. -/
theorem script_failed_branch_unreachable_witness :
    (["New hash for Test123!: " ++
        toString (bcrypt.encodeHash ⟨10, 0, bcrypt.digest password 10 0⟩),
      "Verification test: PASSED"] : List String).get? 1 =
        some "Verification test: PASSED" ∧
    "Verification test: FAILED" ∉
      (["New hash for Test123!: " ++
          toString (bcrypt.encodeHash ⟨10, 0, bcrypt.digest password 10 0⟩),
        "Verification test: PASSED"] : List String) :=
  (script_failed_branch_unreachable 0).2 _ 0 rfl

/-- Claim C10: `hashpw` is deterministic in its two arguments — two
calls with the same password and the same salt yield the identical
encoded hash — and this is what makes verification by re-derivation
possible: the hash it returns verifies against the password. -/
theorem hashpw_deterministic (p : Bytes) (s : bcrypt.Salt) (e₁ e₂ : Bytes)
    (h₁ : bcrypt.hashpw p s = .ok e₁) (h₂ : bcrypt.hashpw p s = .ok e₂) :
    e₁ = e₂ ∧ (4 ≤ s.cost → s.cost ≤ 31 → bcrypt.checkpw p e₁ = .ok true) := by
  by_cases hlen : p.length ≤ 72
  · simp only [bcrypt.hashpw, if_pos hlen, Except.ok.injEq] at h₁ h₂
    subst h₁
    refine ⟨h₂.symm ▸ rfl, fun h4 h31 => ?_⟩
    exact bcrypt.checkpw_encode p s.cost s.value h4 h31
  · simp [bcrypt.hashpw, hlen] at h₁

/-- Claim C10, witnessed at the script's password with a concrete salt
of cost 10. -/
theorem hashpw_deterministic_witness :
    bcrypt.checkpw password (bcrypt.encodeHash ⟨10, 0, bcrypt.digest password 10 0⟩) =
      .ok true :=
  (hashpw_deterministic password ⟨10, 0⟩
    (bcrypt.encodeHash ⟨10, 0, bcrypt.digest password 10 0⟩)
    (bcrypt.encodeHash ⟨10, 0, bcrypt.digest password 10 0⟩) rfl rfl).2
    (by decide) (by decide)
